import Mathlib

/-!
# A verification development for the sports-app backend proxy

Shallow embedding, in Lean 4, of the stateful core of the sports-app
repository (`src/storage.ts` and `src/server.ts`): the per-client
follow-state store, the TTL response cache with its caching fetch
wrapper, and the aggregation route handlers over followed teams.

Conventions of the embedding:
* a JavaScript object / `Map` keyed by strings is an insertion-ordered
  association list (`RecordT`); assigning to an existing key updates the
  value in place, assigning to a new key appends it;
* machine timestamps (`Date.now()`) are `Int` milliseconds passed
  explicitly;
* fallible code (a `throw`, a rejected promise) is `Except String`;
* the backing state file and the upstream HTTP API are modelled as
  explicit inputs (file content, a fetch function) at the I/O boundary.
-/

namespace SportsApp

/-- An insertion-ordered string-keyed record: the model of a plain
JavaScript object (and of a string-keyed `Map`). -/
abbrev RecordT (α : Type) : Type := List (String × α)

/-- Property read `r[k]`: the value at the first (for well-formed records,
only) binding of `k`, or `none` when `k` is not a key. -/
def rget {α : Type} : RecordT α → String → Option α
  | [], _ => none
  | (k', v) :: r, k => if k' = k then some v else rget r k

/-- Property write `r[k] = v`: updates the binding of `k` in place when `k`
is already a key, otherwise appends the new binding (JavaScript key order). -/
def rset {α : Type} : RecordT α → String → α → RecordT α
  | [], k, v => [(k, v)]
  | (k', v') :: r, k, v => if k' = k then (k, v) :: r else (k', v') :: rset r k v

/-- Key removal, `map.delete(k)`. -/
def rdel {α : Type} : RecordT α → String → RecordT α
  | [], _ => []
  | (k', v) :: r, k => if k' = k then rdel r k else (k', v) :: rdel r k

/-- `Object.keys(r)`, in order. -/
def rkeys {α : Type} (r : RecordT α) : List String := r.map (fun p => p.1)

theorem rget_rset {α : Type} (r : RecordT α) (k' : String) (v : α) (k : String) :
    rget (rset r k' v) k = if k' = k then some v else rget r k := by
  induction r with
  | nil => simp [rset, rget]
  | cons p r ih =>
    obtain ⟨a, b⟩ := p
    by_cases hak' : a = k'
    · subst hak'
      by_cases hk : a = k <;> simp [rset, rget, hk]
    · by_cases hk : a = k
      · subst hk
        have : ¬ k' = a := fun h => hak' h.symm
        simp [rset, rget, hak', this]
      · simp [rset, rget, hak', hk, ih]

theorem rget_rset_self {α : Type} (r : RecordT α) (k : String) (v : α) :
    rget (rset r k v) k = some v := by
  simp [rget_rset]

theorem rget_rdel_self {α : Type} (r : RecordT α) (k : String) :
    rget (rdel r k) k = none := by
  induction r with
  | nil => simp [rdel, rget]
  | cons p r ih =>
    obtain ⟨a, b⟩ := p
    by_cases hak : a = k <;> simp [rdel, rget, hak, ih]

theorem rget_isSome_iff_mem_rkeys {α : Type} (r : RecordT α) (k : String) :
    (rget r k).isSome ↔ k ∈ rkeys r := by
  induction r with
  | nil => simp [rget, rkeys]
  | cons p r ih =>
    obtain ⟨a, b⟩ := p
    by_cases hak : a = k
    · simp [rget, rkeys, hak]
    · have hka : ¬ k = a := fun h => hak h.symm
      simp [rget, rkeys, hak, hka, ih]

/-- `Array.from(new Set(l))`, with the iteration already performed: walks the
list keeping each element whose value has not been seen before (JavaScript
`Set` insertion order is first-occurrence order). -/
def fromSetAux : List String → List String → List String
  | _, [] => []
  | seen, x :: xs =>
    if x ∈ seen then fromSetAux seen xs
    else x :: fromSetAux (x :: seen) xs

/-- `Array.from(new Set(l))`: the de-duplication the storage operations use. -/
def fromSet (l : List String) : List String := fromSetAux [] l

/-- Written from the spec's words: "de-duplicated ... preserving
first-occurrence order" — keep the head, then de-duplicate the tail with all
later copies of the head removed. Compared with the source-derived
`fromSet` below. -/
def specDedupFirst : List String → List String
  | [] => []
  | x :: xs => x :: specDedupFirst (xs.filter (fun y => y != x))
termination_by l => l.length
decreasing_by
  simp only [List.length_cons]
  exact Nat.lt_succ_of_le (List.length_filter_le _ _)

theorem fromSetAux_eq (l : List String) :
    ∀ seen : List String,
      fromSetAux seen l = specDedupFirst (l.filter (fun y => decide (¬ y ∈ seen))) := by
  induction l with
  | nil => intro seen; simp [fromSetAux, specDedupFirst]
  | cons x xs ih =>
    intro seen
    by_cases hx : x ∈ seen
    · have hpx : (decide (¬ x ∈ seen)) = false := by simp [hx]
      rw [fromSetAux, if_pos hx, ih seen, List.filter_cons, hpx]
      simp
    · have hpx : (decide (¬ x ∈ seen)) = true := by simp [hx]
      rw [fromSetAux, if_neg hx, List.filter_cons, hpx, if_pos rfl,
        specDedupFirst, ih (x :: seen), List.filter_filter]
      congr 1
      congr 1
      apply List.filter_congr
      intro a _
      show decide (¬ a ∈ x :: seen) = (a != x && decide (¬ a ∈ seen))
      by_cases hax : a = x
      · subst hax; simp
      · by_cases has : a ∈ seen <;> simp [hax, has]

theorem fromSet_eq_specDedupFirst (l : List String) :
    fromSet l = specDedupFirst l := by
  rw [fromSet, fromSetAux_eq]
  congr 1
  apply List.filter_eq_self.mpr
  intro a _
  simp

theorem mem_fromSetAux (l : List String) :
    ∀ (seen : List String) (a : String),
      a ∈ fromSetAux seen l ↔ a ∈ l ∧ ¬ a ∈ seen := by
  induction l with
  | nil => intro seen a; simp [fromSetAux]
  | cons x xs ih =>
    intro seen a
    by_cases hx : x ∈ seen
    · simp only [fromSetAux, if_pos hx, ih, List.mem_cons]
      constructor
      · rintro ⟨h1, h2⟩; exact ⟨Or.inr h1, h2⟩
      · rintro ⟨h1 | h1, h2⟩
        · exact absurd (h1 ▸ hx) h2
        · exact ⟨h1, h2⟩
    · simp only [fromSetAux, if_neg hx, List.mem_cons, ih, List.mem_cons]
      constructor
      · rintro (rfl | ⟨h1, h2⟩)
        · exact ⟨Or.inl rfl, hx⟩
        · refine ⟨Or.inr h1, fun hc => h2 (Or.inr hc)⟩
      · rintro ⟨rfl | h1, h2⟩
        · exact Or.inl rfl
        · by_cases hax : a = x
          · exact Or.inl hax
          · exact Or.inr ⟨h1, fun hc => hc.elim hax h2⟩

theorem mem_fromSet (l : List String) (a : String) : a ∈ fromSet l ↔ a ∈ l := by
  rw [fromSet, mem_fromSetAux]
  simp

theorem nodup_fromSetAux (l : List String) :
    ∀ seen : List String, (fromSetAux seen l).Nodup := by
  induction l with
  | nil => intro seen; simp [fromSetAux]
  | cons x xs ih =>
    intro seen
    by_cases hx : x ∈ seen
    · simpa [fromSetAux, hx] using ih seen
    · rw [fromSetAux, if_neg hx]
      refine List.nodup_cons.mpr ⟨?_, ih (x :: seen)⟩
      rw [mem_fromSetAux]
      rintro ⟨-, h2⟩
      exact h2 (List.mem_cons_self x seen)

theorem sublist_fromSetAux (l : List String) :
    ∀ seen : List String, (fromSetAux seen l).Sublist l := by
  induction l with
  | nil => intro seen; simp [fromSetAux]
  | cons x xs ih =>
    intro seen
    by_cases hx : x ∈ seen
    · simpa [fromSetAux, hx] using (ih seen).trans (List.sublist_cons_self x xs)
    · rw [fromSetAux, if_neg hx]
      exact (ih (x :: seen)).cons₂ x

theorem specDedupFirst_append_absorb (l : List String) :
    ∀ extra : List String, l.Nodup → (∀ x ∈ extra, x ∈ l) →
      specDedupFirst (l ++ extra) = l := by
  induction l with
  | nil =>
    intro extra _ hextra
    have : extra = [] := List.eq_nil_iff_forall_not_mem.mpr (fun a ha => by
      simpa using hextra a ha)
    simp [this, specDedupFirst]
  | cons x xs ih =>
    intro extra hnd hextra
    have hx_not : ¬ x ∈ xs := (List.nodup_cons.mp hnd).1
    have hxs_nd : xs.Nodup := (List.nodup_cons.mp hnd).2
    rw [List.cons_append, specDedupFirst, List.filter_append]
    have hxs_filter : xs.filter (fun y => y != x) = xs := by
      apply List.filter_eq_self.mpr
      intro a ha
      have : a ≠ x := fun h => hx_not (h ▸ ha)
      simpa using this
    rw [hxs_filter, ih (extra.filter (fun y => y != x)) hxs_nd ?_]
    intro a ha
    have ha' := List.mem_filter.mp ha
    have hmem : a ∈ x :: xs := hextra a ha'.1
    have hne : a ≠ x := by simpa using ha'.2
    exact (List.mem_cons.mp hmem).elim (fun h => absurd h hne) id

/-! ## The follow-state store (`src/storage.ts`, latest schema)

`StoredTeam`, `FollowState` and `DB` mirror the TypeScript types; the
operations mirror `getState`, `setTeamIds`, `addTeams` and `clearState`.
Each source operation is a full read-modify-write cycle against the single
backing file; the functions below are the mutation each operation applies
between its `readDB()` and its `writeDB(db)`, as a transition `DB → DB`. -/

structure StoredTeam where
  id : String
  name : String
  shortName : Option String
  sport : String
  league : String
  leagueId : Option String
  stadium : Option String
  country : Option String
  badge : Option String
  logo : Option String
  banner : Option String
deriving DecidableEq, Repr

structure FollowState where
  teamIds : List String
  teamsById : RecordT StoredTeam
deriving DecidableEq, Repr

/-- The defaulted state `{ teamIds: [], teamsById: {} }`. -/
def emptyFollowState : FollowState := { teamIds := [], teamsById := [] }

abbrev DB : Type := RecordT FollowState

/-- `getState(clientId)`: `db[clientId] ?? { teamIds: [], teamsById: {} }`. -/
def getState (db : DB) (clientId : String) : FollowState :=
  (rget db clientId).getD emptyFollowState

/-- `setTeamIds(clientId, teamIds)`: the mutation applied to the read
database. `teamIds.map(String)` is the identity on the string inputs
modelled here; `Array.from(new Set(...))` is `fromSet`. -/
def setTeamIds (db : DB) (clientId : String) (teamIds : List String) : DB :=
  let prev := (rget db clientId).getD emptyFollowState
  rset db clientId { prev with teamIds := fromSet teamIds }

/-- `addTeams(clientId, teams)`: the mutation applied to the read database.
The source's single loop assigns `teamsById[t.id] = t` and pushes `t.id`
for each `t`; the two independent effects are the fold and the append. -/
def addTeams (db : DB) (clientId : String) (teams : List StoredTeam) : DB :=
  let prev := (rget db clientId).getD emptyFollowState
  let teamsById := teams.foldl (fun m t => rset m t.id t) prev.teamsById
  let ids := prev.teamIds ++ teams.map (fun t => t.id)
  rset db clientId { teamIds := fromSet ids, teamsById := teamsById }

/-- `clearState(clientId)`: `db[clientId] = { teamIds: [], teamsById: {} }`. -/
def clearState (db : DB) (clientId : String) : DB :=
  rset db clientId emptyFollowState

/-! ## Lemmas about the fold in `addTeams` -/

theorem rget_foldl_rset (teams : List StoredTeam) :
    ∀ (m : RecordT StoredTeam) (k : String),
      rget (teams.foldl (fun acc t => rset acc t.id t) m) k
        = match teams.reverse.find? (fun t => t.id == k) with
          | some t => some t
          | none => rget m k := by
  induction teams with
  | nil => intro m k; simp
  | cons t ts ih =>
    intro m k
    rw [List.foldl_cons, ih, List.reverse_cons, List.find?_append]
    cases hfind : ts.reverse.find? (fun u => u.id == k) with
    | some u => simp [Option.orElse]
    | none =>
      by_cases hid : t.id = k
      · simp [Option.orElse, List.find?, hid, rget_rset]
      · have hid' : (t.id == k) = false := by simpa using hid
        simp [Option.orElse, List.find?, hid', rget_rset, hid]

theorem mem_rkeys_foldl_rset (teams : List StoredTeam) (m : RecordT StoredTeam)
    (k : String)
    (h : k ∈ rkeys (teams.foldl (fun acc t => rset acc t.id t) m)) :
    k ∈ rkeys m ∨ k ∈ teams.map (fun t => t.id) := by
  have h1 : (rget (teams.foldl (fun acc t => rset acc t.id t) m) k).isSome :=
    (rget_isSome_iff_mem_rkeys _ k).mpr h
  rw [rget_foldl_rset] at h1
  cases hfind : teams.reverse.find? (fun t => t.id == k) with
  | some t =>
    right
    have hmem : t ∈ teams.reverse := List.mem_of_find?_eq_some hfind
    have hpred : (t.id == k) = true :=
      List.find?_some (p := fun u : StoredTeam => u.id == k) hfind
    have hidk : t.id = k := by simpa using hpred
    exact List.mem_map.mpr ⟨t, by simpa using hmem, hidk⟩
  | none =>
    left
    rw [hfind] at h1
    exact (rget_isSome_iff_mem_rkeys m k).mp h1

/-- The state the mutated client holds right after `addTeams` writes it back. -/
theorem getState_addTeams (db : DB) (clientId : String) (teams : List StoredTeam) :
    getState (addTeams db clientId teams) clientId
      = { teamIds :=
            fromSet ((getState db clientId).teamIds ++ teams.map (fun t => t.id)),
          teamsById :=
            teams.foldl (fun m t => rset m t.id t) (getState db clientId).teamsById } := by
  simp [getState, addTeams, rget_rset_self]

/-- The state the mutated client holds right after `setTeamIds` writes it back. -/
theorem getState_setTeamIds (db : DB) (clientId : String) (ids : List String) :
    getState (setTeamIds db clientId ids) clientId
      = { getState db clientId with teamIds := fromSet ids } := by
  simp [getState, setTeamIds, rget_rset_self]

/-! ## The claims about the follow-state store -/

/-- C5: for every client and input list, `setTeamIds` replaces the client's
`teamIds` with the input de-duplicated so that the first occurrence of each
ID is kept in its original relative order (stated four ways: it equals the
spec-side first-occurrence de-duplication, it has no duplicates, it is a
subsequence of the input — so relative order is the input's — and it has
exactly the input's elements). -/
theorem setTeamIds_dedup_first_occurrence (db : DB) (clientId : String)
    (ids : List String) :
    (getState (setTeamIds db clientId ids) clientId).teamIds = specDedupFirst ids
    ∧ (getState (setTeamIds db clientId ids) clientId).teamIds.Nodup
    ∧ ((getState (setTeamIds db clientId ids) clientId).teamIds).Sublist ids
    ∧ (∀ x, x ∈ (getState (setTeamIds db clientId ids) clientId).teamIds ↔ x ∈ ids) := by
  rw [getState_setTeamIds]
  refine ⟨fromSet_eq_specDedupFirst ids, ?_, ?_, fun x => mem_fromSet ids x⟩
  · exact nodup_fromSetAux ids []
  · exact sublist_fromSetAux ids []

/-- C6: `setTeamIds` leaves the mutated client's `teamsById` mapping exactly
unchanged — the `{ ...prev, teamIds: ... }` spread overwrites only the
`teamIds` field. -/
theorem setTeamIds_preserves_teamsById (db : DB) (clientId : String)
    (ids : List String) :
    (getState (setTeamIds db clientId ids) clientId).teamsById
      = (getState db clientId).teamsById := by
  rw [getState_setTeamIds]

/-- C8: `getState` is total and returns the zero-value state for a client
with no stored entry; after `clearState` the client's entry exists (the
partition is reset, not removed) and reads back as that same zero-value
state, indistinguishable at the `getState` interface from a never-seen
client (here: from any client of the empty database). -/
theorem getState_default_and_clear (db : DB) (clientId : String) :
    (rget db clientId = none → getState db clientId = emptyFollowState)
    ∧ getState (clearState db clientId) clientId = emptyFollowState
    ∧ rget (clearState db clientId) clientId = some emptyFollowState
    ∧ getState (clearState db clientId) clientId = getState [] clientId := by
  refine ⟨fun h => by simp [getState, h], ?_, ?_, ?_⟩
  · simp [getState, clearState, rget_rset_self]
  · simp [clearState, rget_rset_self]
  · simp [getState, clearState, rget_rset_self, rget]

/-- C1 (amended): `addTeams` preserves the invariant that every key of the
mutated client's `teamsById` also appears in its `teamIds` — every ID it
upserts is also appended before de-duplication, and previously stored keys
are covered by the invariant's holding beforehand. (`setTeamIds` does not
maintain the invariant; see the counterexample.) -/
theorem addTeams_preserves_follow_invariant (db : DB) (clientId : String)
    (teams : List StoredTeam)
    (h : ∀ k, k ∈ rkeys (getState db clientId).teamsById →
      k ∈ (getState db clientId).teamIds) :
    ∀ k, k ∈ rkeys (getState (addTeams db clientId teams) clientId).teamsById →
      k ∈ (getState (addTeams db clientId teams) clientId).teamIds := by
  intro k hk
  rw [getState_addTeams] at hk ⊢
  rw [mem_fromSet, List.mem_append]
  rcases mem_rkeys_foldl_rset teams (getState db clientId).teamsById k hk with hold | hnew
  · exact Or.inl (h k hold)
  · exact Or.inr hnew

/-- A team snapshot used for concrete instances below. -/
def teamA : StoredTeam :=
  { id := "A", name := "Alpha FC", shortName := none, sport := "Soccer",
    league := "L", leagueId := some "1", stadium := none, country := none,
    badge := none, logo := none, banner := none }

/-- C1 counterexample: after `addTeams(client, [teamA])` followed by
`setTeamIds(client, [])`, the ID `"A"` is a key of the client's `teamsById`
but is absent from its `teamIds` — a "set" operation can break the claimed
invariant, because `setTeamIds` overwrites `teamIds` without touching
`teamsById`. -/
theorem setTeamIds_violates_follow_invariant :
    "A" ∈ rkeys
        (getState (setTeamIds (addTeams [] "client" [teamA]) "client" []) "client").teamsById
    ∧ ¬ "A" ∈
        (getState (setTeamIds (addTeams [] "client" [teamA]) "client" []) "client").teamIds := by
  decide

/-- C1 witness: the preserved-invariant theorem applied at a concrete input:
from the empty database, the invariant holds vacuously, and after
`addTeams([] , "client", [teamA])` the key `"A"` indeed appears in `teamIds`. -/
theorem addTeams_preserves_follow_invariant_app :
    "A" ∈ (getState (addTeams [] "client" [teamA]) "client").teamIds :=
  addTeams_preserves_follow_invariant [] "client" [teamA]
    (fun k hk => absurd hk (by simp [getState, rget, emptyFollowState, rkeys]))
    "A" (by decide)

/-- Written from the spec's words for `addTeams`: each given snapshot is
upserted by its ID, a later snapshot overwriting an earlier one for the same
ID; an ID not among the given snapshots keeps its previous snapshot. -/
def upsertLookup (old : RecordT StoredTeam) (teams : List StoredTeam)
    (k : String) : Option StoredTeam :=
  match teams.reverse.find? (fun t => t.id == k) with
  | some t => some t
  | none => rget old k

/-- C7: `addTeams` upserts every snapshot into `teamsById` by ID (overwriting
any existing snapshot), appends the IDs and de-duplicates keeping first
occurrences; consequently re-adding already-followed teams changes no
position in and adds no duplicate to a duplicate-free `teamIds`. -/
theorem addTeams_upsert_spec (db : DB) (clientId : String)
    (teams : List StoredTeam) :
    (getState (addTeams db clientId teams) clientId).teamIds
      = specDedupFirst
          ((getState db clientId).teamIds ++ teams.map (fun t => t.id))
    ∧ (∀ k, rget (getState (addTeams db clientId teams) clientId).teamsById k
        = upsertLookup (getState db clientId).teamsById teams k)
    ∧ ((getState db clientId).teamIds.Nodup →
        (∀ t ∈ teams, t.id ∈ (getState db clientId).teamIds) →
        (getState (addTeams db clientId teams) clientId).teamIds
          = (getState db clientId).teamIds) := by
  refine ⟨?_, ?_, ?_⟩
  · rw [getState_addTeams]
    exact fromSet_eq_specDedupFirst _
  · intro k
    rw [getState_addTeams]
    simpa [upsertLookup] using
      rget_foldl_rset teams (getState db clientId).teamsById k
  · intro hnd hsub
    rw [getState_addTeams]
    show fromSet ((getState db clientId).teamIds ++ teams.map (fun t => t.id)) = _
    rw [fromSet_eq_specDedupFirst]
    apply specDedupFirst_append_absorb _ _ hnd
    intro x hx
    rcases List.mem_map.mp hx with ⟨t, ht, rfl⟩
    exact hsub t ht


/-! ## The response cache and its fetch wrapper
(`src/server.ts`, latest revision) -/

/-- `path.startsWith(prefixText)` of JavaScript, as a character-list prefix
test (identical semantics, and computable by the kernel). -/
def strStartsWith (s pre : String) : Bool := pre.data.isPrefixOf s.data

/-- A JavaScript value as the cache and the fetch wrapper see one: the cache
is opaque to the value and the wrapper only tests truthiness, so the model
distinguishes null, booleans, numbers, strings and (opaque) objects. -/
inductive JSVal where
  | vnull
  | vbool (b : Bool)
  | vnum (n : Int)
  | vstr (s : String)
  | vobj (tag : Nat)
deriving DecidableEq, Repr

/-- JavaScript truthiness of the values modelled (objects are truthy). -/
def truthy : JSVal → Bool
  | JSVal.vnull => false
  | JSVal.vbool b => b
  | JSVal.vnum n => n != 0
  | JSVal.vstr s => s != ""
  | JSVal.vobj _ => true

structure CacheEntry where
  expiresAt : Int
  value : JSVal
deriving DecidableEq, Repr

abbrev Cache : Type := RecordT CacheEntry

/-- `cacheGet(key)` at instant `now` (`Date.now()` in ms): the returned value
and the cache after the lookup's eviction side effect. -/
def cacheGet (now : Int) (cache : Cache) (key : String) : Option JSVal × Cache :=
  match rget cache key with
  | none => (none, cache)
  | some entry =>
    if now > entry.expiresAt then (none, rdel cache key)
    else (some entry.value, cache)

/-- `cacheSet(key, value, ttlSeconds)` at instant `now`. -/
def cacheSet (now : Int) (cache : Cache) (key : String) (value : JSVal)
    (ttlSeconds : Int) : Cache :=
  rset cache key { value := value, expiresAt := now + ttlSeconds * 1000 }

/-- The caching fetch wrapper `get(path, ttlSeconds)` of the latest server
revision. `fetch` stands for `axios.get` on the full URL — `Except.error` is
a thrown request failure — and `base` for the module's `BASE` prefix. The
result is the delivered value together with the cache after the call.
Mirrors the source: `shouldCache` skips both the lookup and the insertion
for `/lookupteam.php` paths; a cached value is delivered only when the
JavaScript `if (cached)` truthiness test passes. -/
def get (fetch : String → Except String JSVal) (now : Int) (base : String)
    (cache : Cache) (path : String) (ttlSeconds : Int) :
    Except String (JSVal × Cache) :=
  let url := base ++ path
  let shouldCache := !(strStartsWith path "/lookupteam.php")
  if shouldCache then
    let looked := cacheGet now cache url
    match looked.1 with
    | some v =>
      if truthy v then Except.ok (v, looked.2)
      else (fetch url).map (fun r => (r, cacheSet now looked.2 url r ttlSeconds))
    | none => (fetch url).map (fun r => (r, cacheSet now looked.2 url r ttlSeconds))
  else
    (fetch url).map (fun r => (r, cache))

/-- C4: a value inserted by `cacheSet` with TTL `t` seconds is returned by
`cacheGet` at every instant up to `expiresAt` = insertion time + `t * 1000`
ms, with the cache unchanged; at every instant strictly after `expiresAt`
the lookup behaves as absent and evicts the entry as its side effect, and
any later lookup in the evicted cache still misses — repeated reads never
resurrect the stale value. -/
theorem cache_ttl_expiry (cache : Cache) (key : String) (value : JSVal)
    (ttlSeconds now : Int) :
    (∀ t, t ≤ now + ttlSeconds * 1000 →
      cacheGet t (cacheSet now cache key value ttlSeconds) key
        = (some value, cacheSet now cache key value ttlSeconds))
    ∧ (∀ t, now + ttlSeconds * 1000 < t →
        (cacheGet t (cacheSet now cache key value ttlSeconds) key).1 = none
        ∧ (cacheGet t (cacheSet now cache key value ttlSeconds) key).2
            = rdel (cacheSet now cache key value ttlSeconds) key
        ∧ (∀ u,
            (cacheGet u
              (cacheGet t (cacheSet now cache key value ttlSeconds) key).2
              key).1 = none)) := by
  have hentry : rget (cacheSet now cache key value ttlSeconds) key
      = some { value := value, expiresAt := now + ttlSeconds * 1000 } :=
    rget_rset_self _ _ _
  constructor
  · intro t ht
    have hnot : ¬ t > now + ttlSeconds * 1000 := not_lt.mpr ht
    simp [cacheGet, hentry, hnot]
  · intro t ht
    have h2 : (cacheGet t (cacheSet now cache key value ttlSeconds) key).2
        = rdel (cacheSet now cache key value ttlSeconds) key := by
      simp [cacheGet, hentry, ht]
    refine ⟨by simp [cacheGet, hentry, ht], h2, ?_⟩
    intro u
    rw [h2]
    simp [cacheGet, rget_rdel_self]

/-- C9: a `/lookupteam.php` request bypasses the cache inside the fetch
wrapper — the result is the fresh upstream response, and the cache comes
back untouched: nothing read from it, nothing inserted. The second conjunct
shows the cache primitive itself is key-agnostic: called directly,
`cacheSet` inserts a `lookupteam` URL like any other key, so the exclusion
lives in the caller's `shouldCache` pass/skip flag, not in the cache. -/
theorem lookupteam_bypasses_cache (fetch : String → Except String JSVal)
    (now : Int) (base : String) (cache : Cache) (path : String)
    (ttlSeconds : Int) (h : strStartsWith path "/lookupteam.php" = true) :
    get fetch now base cache path ttlSeconds
      = (fetch (base ++ path)).map (fun r => (r, cache))
    ∧ (∀ value,
        rget (cacheSet now cache (base ++ path) value ttlSeconds) (base ++ path)
          = some { value := value, expiresAt := now + ttlSeconds * 1000 }) := by
  constructor
  · simp [get, h]
  · intro value
    exact rget_rset_self _ _ _

def fetchSeven : String → Except String JSVal := fun _ => Except.ok (JSVal.vnum 7)

/-- C9 witness: the bypass theorem applied at a concrete request. -/
theorem lookupteam_bypasses_cache_app :
    get fetchSeven 0 "B" [] "/lookupteam.php?id=1" 60
      = (fetchSeven ("B" ++ "/lookupteam.php?id=1")).map
          (fun r => (r, ([] : Cache)))
    ∧ (∀ value,
        rget (cacheSet 0 [] ("B" ++ "/lookupteam.php?id=1") value 60)
            ("B" ++ "/lookupteam.php?id=1")
          = some { value := value, expiresAt := 0 + 60 * 1000 }) :=
  lookupteam_bypasses_cache fetchSeven 0 "B" [] "/lookupteam.php?id=1" 60
    (by decide)

/-- C10: a cache entry that is present and unexpired but holds a falsy value
(null, false, 0, or the empty string) is treated as a miss by the fetch
wrapper — the JavaScript `if (cached)` test cannot tell a cached falsy value
from `cacheGet`'s null-for-absent — so a fresh upstream request is issued
and its response re-inserted into the cache. -/
theorem falsy_cache_entry_refetches (fetch : String → Except String JSVal)
    (now : Int) (base : String) (cache : Cache) (path : String)
    (ttlSeconds : Int) (entry : CacheEntry)
    (hpath : strStartsWith path "/lookupteam.php" = false)
    (hentry : rget cache (base ++ path) = some entry)
    (hfresh : ¬ now > entry.expiresAt)
    (hfalsy : truthy entry.value = false) :
    get fetch now base cache path ttlSeconds
      = (fetch (base ++ path)).map
          (fun r => (r, cacheSet now cache (base ++ path) r ttlSeconds)) := by
  simp [get, hpath, cacheGet, hentry, hfresh, hfalsy]

def fallbackFetch : String → Except String JSVal :=
  fun _ => Except.ok (JSVal.vstr "fresh")

/-- A cache holding the falsy number `0`, unexpired at instant 50, under the
key the wrapper builds for base `"B"` and path `"/x"`. -/
def falsyCache : Cache := [("B/x", { expiresAt := 100, value := JSVal.vnum 0 })]

/-- C10 witness: the falsy-miss theorem applied at a concrete cache state. -/
theorem falsy_cache_entry_refetches_app :
    get fallbackFetch 50 "B" falsyCache "/x" 60
      = (fallbackFetch ("B" ++ "/x")).map
          (fun r => (r, cacheSet 50 falsyCache ("B" ++ "/x") r 60)) :=
  falsy_cache_entry_refetches fallbackFetch 50 "B" falsyCache "/x" 60
    { expiresAt := 100, value := JSVal.vnum 0 }
    (by decide) (by decide) (by decide) (by decide)

/-! ## The defensive read (`src/storage.ts`, `readDB`) -/

/-- The backing state file as `readDB` observes it: absent, or present with
raw text content (the empty string for an empty file). -/
inductive FileContent where
  | missing
  | text (raw : String)

/-- `readDB()`, with the runtime's `JSON.parse` passed explicitly: a missing
file and an empty file yield the empty mapping; any other content goes to
`JSON.parse` — whose thrown `SyntaxError` (an `Except.error` here)
propagates out of `readDB`, which has no `try/catch`. -/
def readDB (parse : String → Except String DB) : FileContent → Except String DB
  | FileContent.missing => Except.ok []
  | FileContent.text raw => if raw = "" then Except.ok [] else parse raw

/-- Modelled from the runtime: `JSON.parse` returns the decoded mapping for
well-formed JSON text and throws a `SyntaxError` on malformed text. This
concrete instance records that behaviour on the inputs used below: `"{}"`
is well-formed and decodes to the empty mapping; `"not json"` is not valid
JSON, so the real `JSON.parse` throws on it. -/
def jsonParseAt : String → Except String DB := fun raw =>
  if raw = "{}" then Except.ok []
  else Except.error "SyntaxError: Unexpected token"

/-- C2 (amended): a missing backing file and an empty backing file read as
the empty mapping; but for malformed non-empty content `readDB` propagates
the parse error instead of defaulting — there is no `try/catch` around
`JSON.parse`. -/
theorem readDB_defaulting (parse : String → Except String DB) :
    readDB parse FileContent.missing = Except.ok []
    ∧ readDB parse (FileContent.text "") = Except.ok []
    ∧ (∀ raw msg, raw ≠ "" → parse raw = Except.error msg →
        readDB parse (FileContent.text raw) = Except.error msg) := by
  refine ⟨rfl, by simp [readDB], ?_⟩
  intro raw msg hraw hparse
  simp [readDB, hraw, hparse]

/-- C2 counterexample: on the malformed content `"not json"` — for which the
runtime's `JSON.parse` throws a `SyntaxError` — reading the store raises
that error and does not yield the empty mapping. -/
theorem readDB_error_on_malformed :
    readDB jsonParseAt (FileContent.text "not json")
        = Except.error "SyntaxError: Unexpected token"
    ∧ readDB jsonParseAt (FileContent.text "not json") ≠ Except.ok [] := by
  constructor
  · simp [readDB, jsonParseAt]
  · simp [readDB, jsonParseAt]


/-! ## Aggregation over followed teams
(`src/server.ts`, latest revision: `/me/feed` and `/me/schedule`)

The handlers are embedded over an abstract request function
`fetchJ path ttlSeconds` standing for the caching fetch wrapper `get` as the
handlers call it: `Except.error` is a thrown upstream failure (request error
or timeout), `Except.ok` a decoded JSON envelope. -/

/-- `encodeURIComponent`: on the identifier and season strings exercised
here (which need no escaping) it is the identity embedding. -/
def enc (s : String) : String := s

/-- `encodeURIComponent` of a possibly-absent field value (JavaScript
stringifies the absent value). -/
def encOpt : Option String → String
  | some s => enc s
  | none => "undefined"

/-- `a || b` for a possibly-absent string: JavaScript falls back both on an
absent value and on the empty string (falsy). -/
def jsOr : Option String → String → String
  | some s, d => if s = "" then d else s
  | none, d => d

/-- `s.trim()`: strip whitespace from both ends (over the character list,
so the kernel can evaluate it). -/
def strTrim (s : String) : String :=
  ⟨((s.data.dropWhile (fun ch => ch.isWhitespace)).reverse.dropWhile
      (fun ch => ch.isWhitespace)).reverse⟩

/-- An upstream team record, with the fields `normalizeTeam` reads
(absent/null fields are `none`). -/
structure RawTeam where
  idTeam : String
  strTeam : String
  strTeamShort : Option String
  strSport : String
  strLeague : String
  idLeague : Option String
  strStadium : Option String
  strCountry : Option String
  strBadge : Option String
  strLogo : Option String
  strTeamBanner : Option String
deriving DecidableEq, Repr

/-- `normalizeTeam`: the server's normalized team shape coincides field for
field with the store's `StoredTeam`, which this embedding reuses. `|| null`
fields also map the empty string to null (falsy). -/
def normalizeTeam (t : RawTeam) : StoredTeam :=
  { id := t.idTeam, name := t.strTeam,
    shortName := jsOr t.strTeamShort "" |> (fun s => if s = "" then none else some s),
    sport := t.strSport, league := t.strLeague, leagueId := t.idLeague,
    stadium := jsOr t.strStadium "" |> (fun s => if s = "" then none else some s),
    country := jsOr t.strCountry "" |> (fun s => if s = "" then none else some s),
    badge := jsOr t.strBadge "" |> (fun s => if s = "" then none else some s),
    logo := jsOr t.strLogo "" |> (fun s => if s = "" then none else some s),
    banner := jsOr t.strTeamBanner "" |> (fun s => if s = "" then none else some s) }

/-- An upstream event record, with the fields `normalizeEvent` reads. -/
structure RawEvent where
  idEvent : String
  dateEvent : Option String
  strTime : Option String
  strSeason : Option String
  intRound : Option String
  strLeague : String
  idLeague : String
  idHomeTeam : String
  strHomeTeam : String
  intHomeScore : Option String
  idAwayTeam : String
  strAwayTeam : String
  intAwayScore : Option String
  strVenue : Option String
  strStatus : Option String
  strThumb : Option String
deriving DecidableEq, Repr

structure NSide where
  id : String
  name : String
  score : Option String
deriving DecidableEq, Repr

/-- The normalized event shape `normalizeEvent` produces. -/
structure NEvent where
  id : String
  date : Option String
  time : Option String
  season : Option String
  round : Option String
  league : String
  leagueId : String
  homeTeam : NSide
  awayTeam : NSide
  venue : Option String
  status : Option String
  thumb : Option String
deriving DecidableEq, Repr

/-- `x || null` of the source: a falsy value (absent or empty string)
becomes null. -/
def orNull : Option String → Option String
  | some s => if s = "" then none else some s
  | none => none

/-- `normalizeEvent`. -/
def normalizeEvent (e : RawEvent) : NEvent :=
  { id := e.idEvent, date := e.dateEvent, time := e.strTime,
    season := orNull e.strSeason, round := orNull e.intRound,
    league := e.strLeague, leagueId := e.idLeague,
    homeTeam := { id := e.idHomeTeam, name := e.strHomeTeam, score := e.intHomeScore },
    awayTeam := { id := e.idAwayTeam, name := e.strAwayTeam, score := e.intAwayScore },
    venue := orNull e.strVenue, status := orNull e.strStatus,
    thumb := orNull e.strThumb }

/-- The upstream JSON envelope as the two aggregation handlers read it:
`data?.teams` and `data?.events`. -/
structure UpData where
  teams : Option (List RawTeam)
  events : Option (List RawEvent)
deriving DecidableEq, Repr

/-- The team part of a response item: the full normalized team, or the
source's `{ id: teamId }` stub pushed when the lookup yields no team or
(in `/me/schedule`) the iteration failed. -/
inductive TeamRef where
  | full (team : StoredTeam)
  | stub (id : String)
deriving DecidableEq, Repr

/-- An event as `/me/feed` parses it: `{ ...e, dt }` with the parsed
timestamp (none for an unparsable date, filtered out before use). -/
structure PEvent where
  ev : NEvent
  dt : Option Int
deriving DecidableEq, Repr

structure FeedItem where
  team : TeamRef
  next : Option PEvent
  last : Option PEvent
deriving DecidableEq, Repr

structure ScheduleEntry where
  team : TeamRef
  season : String
  events : List NEvent
deriving DecidableEq, Repr

/-- The JSON body of a handler response, restricted to the shapes the two
aggregation handlers produce. -/
inductive Body where
  | feedItems (items : List FeedItem)
  | schedules (entries : List ScheduleEntry)
  | err (msg : String)
deriving DecidableEq, Repr

/-- An HTTP response: status code and JSON body. -/
structure Resp where
  status : Nat
  body : Body
deriving DecidableEq, Repr

/-- `requireClientId`: reads the `X-Client-Id` header and throws when it is
absent or empty (falsy). -/
def requireClientId (clientHeader : Option String) : Except String String :=
  match clientHeader with
  | none => Except.error "Missing X-Client-Id header"
  | some id => if id = "" then Except.error "Missing X-Client-Id header" else Except.ok id

/-- Modelled from the spec: the storage revision behind this server revision
(`getFollows`/`setFollows`/`clearFollows`, the per-client ID-list schema) is
not among the repository's files — only its callers are. Per the spec's
store contract, a read returns the client's stored ID sequence, or the
empty sequence for a never-seen client. -/
abbrev FollowDB : Type := RecordT (List String)

/-- Modelled from the spec: `getFollows(clientId)` — the stored ID sequence,
or the empty sequence for a never-seen client. -/
def getFollows (db : FollowDB) (clientId : String) : List String :=
  (rget db clientId).getD []

/-- JavaScript's ascending stable sort by `dt` (`(a, b) => a.dt - b.dt`),
as insertion sort; no theorem below depends on tie order. -/
def insertByDt (p : PEvent) : List PEvent → List PEvent
  | [] => [p]
  | q :: rest =>
    if q.dt.getD 0 ≤ p.dt.getD 0 then q :: insertByDt p rest
    else p :: q :: rest

def sortByDt (l : List PEvent) : List PEvent :=
  l.foldl (fun acc p => insertByDt p acc) []

/-- One iteration of the `/me/feed` loop (no `try/catch` here: an upstream
failure propagates). `parseDate` stands for `new Date(...).getTime()`,
`none` for an invalid date (`isNaN`). -/
def feedItemFor (fetchJ : String → Int → Except String UpData)
    (parseDate : String → Option Int) (nowMs : Int)
    (season : String) (teamId : String) : Except String FeedItem :=
  match fetchJ ("/lookupteam.php?id=" ++ enc teamId) 3600 with
  | Except.error e => Except.error e
  | Except.ok teamData =>
    match (teamData.teams.getD []).head? with
    | none => Except.ok { team := TeamRef.stub teamId, next := none, last := none }
    | some t =>
      let team := normalizeTeam t
      match fetchJ ("/eventsseason.php?id=" ++ encOpt team.leagueId
          ++ "&s=" ++ enc season) 900 with
      | Except.error e => Except.error e
      | Except.ok seasonData =>
        let eventsAll := (seasonData.events.getD []).map normalizeEvent
        let events := eventsAll.filter
          (fun e => e.homeTeam.id == teamId || e.awayTeam.id == teamId)
        let parsed := (events.map (fun e =>
            ({ ev := e,
               dt := match e.date with
                 | some d =>
                   if d = "" then none
                   else parseDate (d ++ "T" ++ (jsOr e.time "00:00:00").take 8)
                 | none => none } : PEvent))).filter (fun p => p.dt.isSome)
        let sorted := sortByDt parsed
        let next := sorted.find? (fun p => nowMs ≤ p.dt.getD 0)
        let last := sorted.reverse.find? (fun p => p.dt.getD 0 < nowMs)
        Except.ok { team := TeamRef.full team, next := next, last := last }

/-- The `/me/feed` aggregation loop: the first thrown failure aborts it. -/
def feedLoop (fetchJ : String → Int → Except String UpData)
    (parseDate : String → Option Int) (nowMs : Int) (season : String) :
    List String → List FeedItem → Except String (List FeedItem)
  | [], acc => Except.ok acc
  | teamId :: rest, acc =>
    match feedItemFor fetchJ parseDate nowMs season teamId with
    | Except.error e => Except.error e
    | Except.ok item => feedLoop fetchJ parseDate nowMs season rest (acc ++ [item])

/-- The `/me/feed` handler (latest revision): the whole body sits in one
`try`, whose `catch` answers HTTP 500 — there is no per-team recovery. -/
def meFeed (fetchJ : String → Int → Except String UpData)
    (parseDate : String → Option Int) (nowMs : Int) (db : FollowDB)
    (clientHeader : Option String) (seasonQ : Option String) : Resp :=
  match requireClientId clientHeader with
  | Except.error e => { status := 500, body := Body.err e }
  | Except.ok clientId =>
    let teamIds := getFollows db clientId
    if teamIds.isEmpty then { status := 200, body := Body.feedItems [] }
    else
      let season := strTrim (jsOr seasonQ "2025-2026")
      match feedLoop fetchJ parseDate nowMs season teamIds [] with
      | Except.error e => { status := 500, body := Body.err e }
      | Except.ok items => { status := 200, body := Body.feedItems items }

/-- One iteration of the `/me/schedule` loop body (the part inside its
per-team `try`). -/
def scheduleEntryFor (fetchJ : String → Int → Except String UpData)
    (season : String) (teamId : String) : Except String ScheduleEntry :=
  match fetchJ ("/lookupteam.php?id=" ++ enc teamId) 3600 with
  | Except.error e => Except.error e
  | Except.ok teamData =>
    match (teamData.teams.getD []).head? with
    | none => Except.ok { team := TeamRef.stub teamId, season := season, events := [] }
    | some t =>
      let team := normalizeTeam t
      match fetchJ ("/eventsseason.php?id=" ++ encOpt team.leagueId
          ++ "&s=" ++ enc season) 900 with
      | Except.error e => Except.error e
      | Except.ok seasonData =>
        let eventsAll := (seasonData.events.getD []).map normalizeEvent
        let events := eventsAll.filter
          (fun e => e.homeTeam.id == teamId || e.awayTeam.id == teamId)
        Except.ok { team := TeamRef.full team, season := season, events := events }

/-- The `/me/schedule` aggregation loop: each iteration's failure is caught
and contributes the placeholder `{ team: { id }, season, events: [] }`. -/
def scheduleLoop (fetchJ : String → Int → Except String UpData)
    (season : String) : List String → List ScheduleEntry → List ScheduleEntry
  | [], acc => acc
  | teamId :: rest, acc =>
    match scheduleEntryFor fetchJ season teamId with
    | Except.ok entry => scheduleLoop fetchJ season rest (acc ++ [entry])
    | Except.error _ =>
      scheduleLoop fetchJ season rest
        (acc ++ [{ team := TeamRef.stub teamId, season := season, events := [] }])

/-- The `/me/schedule` handler (latest revision). -/
def meSchedule (fetchJ : String → Int → Except String UpData) (db : FollowDB)
    (clientHeader : Option String) (seasonQ : Option String) : Resp :=
  match requireClientId clientHeader with
  | Except.error e => { status := 500, body := Body.err e }
  | Except.ok clientId =>
    let season := strTrim (jsOr seasonQ "")
    if season = "" then { status := 400, body := Body.err "Missing query param: season" }
    else
      { status := 200,
        body := Body.schedules (scheduleLoop fetchJ season (getFollows db clientId) []) }

theorem requireClientId_some (c : String) (hc : c ≠ "") :
    requireClientId (some c) = Except.ok c := by
  simp [requireClientId, hc]

theorem scheduleEntryFor_fail (fetchJ : String → Int → Except String UpData)
    (season teamId msg : String)
    (h : fetchJ ("/lookupteam.php?id=" ++ enc teamId) 3600 = Except.error msg) :
    scheduleEntryFor fetchJ season teamId = Except.error msg := by
  simp [scheduleEntryFor, h]

theorem scheduleEntryFor_success (fetchJ : String → Int → Except String UpData)
    (season teamId : String) (ub ue : UpData) (tb : RawTeam)
    (h1 : fetchJ ("/lookupteam.php?id=" ++ enc teamId) 3600 = Except.ok ub)
    (h2 : (ub.teams.getD []).head? = some tb)
    (h3 : fetchJ ("/eventsseason.php?id=" ++ encOpt (normalizeTeam tb).leagueId
        ++ "&s=" ++ enc season) 900 = Except.ok ue) :
    scheduleEntryFor fetchJ season teamId
      = Except.ok
          { team := TeamRef.full (normalizeTeam tb), season := season,
            events := ((ue.events.getD []).map normalizeEvent).filter
              (fun e => e.homeTeam.id == teamId || e.awayTeam.id == teamId) } := by
  simp [scheduleEntryFor, h1, h2, h3]

theorem feedItemFor_fail (fetchJ : String → Int → Except String UpData)
    (parseDate : String → Option Int) (nowMs : Int) (season teamId msg : String)
    (h : fetchJ ("/lookupteam.php?id=" ++ enc teamId) 3600 = Except.error msg) :
    feedItemFor fetchJ parseDate nowMs season teamId = Except.error msg := by
  simp [feedItemFor, h]

/-- C3 (amended): with a client following two team IDs, every upstream call
for the first failing and the calls for the second succeeding,
`/me/schedule` returns overall HTTP 200 with one placeholder entry (stub
team, empty events) for the failed team and one real entry for the other;
`/me/feed`, whose loop has no per-team `try/catch`, instead fails the whole
response with HTTP 500 carrying the upstream error. -/
theorem aggregation_partial_failure
    (fetchJ : String → Int → Except String UpData)
    (parseDate : String → Option Int) (nowMs : Int) (db : FollowDB)
    (c a b msg : String) (ub ue : UpData) (tb : RawTeam)
    (seasonQ seasonQF : Option String)
    (hc : c ≠ "")
    (hfollows : getFollows db c = [a, b])
    (ha : fetchJ ("/lookupteam.php?id=" ++ enc a) 3600 = Except.error msg)
    (hb : fetchJ ("/lookupteam.php?id=" ++ enc b) 3600 = Except.ok ub)
    (htb : (ub.teams.getD []).head? = some tb)
    (hs : strTrim (jsOr seasonQ "") ≠ "")
    (hse : fetchJ ("/eventsseason.php?id=" ++ encOpt (normalizeTeam tb).leagueId
        ++ "&s=" ++ enc (strTrim (jsOr seasonQ ""))) 900 = Except.ok ue) :
    meSchedule fetchJ db (some c) seasonQ
      = { status := 200,
          body := Body.schedules
            [ { team := TeamRef.stub a, season := strTrim (jsOr seasonQ ""),
                events := [] },
              { team := TeamRef.full (normalizeTeam tb),
                season := strTrim (jsOr seasonQ ""),
                events := ((ue.events.getD []).map normalizeEvent).filter
                  (fun e => e.homeTeam.id == b || e.awayTeam.id == b) } ] }
    ∧ meFeed fetchJ parseDate nowMs db (some c) seasonQF
      = { status := 500, body := Body.err msg } := by
  constructor
  · have e1 := scheduleEntryFor_fail fetchJ (strTrim (jsOr seasonQ "")) a msg ha
    have e2 := scheduleEntryFor_success fetchJ (strTrim (jsOr seasonQ "")) b ub ue tb
      hb htb hse
    simp [meSchedule, requireClientId_some c hc, hs, hfollows, scheduleLoop, e1, e2]
  · have ef := feedItemFor_fail fetchJ parseDate nowMs
      (strTrim (jsOr seasonQF "2025-2026")) a msg ha
    simp [meFeed, requireClientId_some c hc, hfollows, feedLoop, ef]

/-- The concrete second team for the aggregation instances. -/
def rawTeamB : RawTeam :=
  { idTeam := "2", strTeam := "Beta FC", strTeamShort := none,
    strSport := "Soccer", strLeague := "L", idLeague := some "L1",
    strStadium := none, strCountry := none, strBadge := none, strLogo := none,
    strTeamBanner := none }

/-- A concrete upstream where every call for team "1" fails and the calls
for team "2" succeed. -/
def fetchSplit : String → Int → Except String UpData := fun url _ =>
  if url = "/lookupteam.php?id=1" then Except.error "upstream unavailable"
  else if url = "/lookupteam.php?id=2" then
    Except.ok { teams := some [rawTeamB], events := none }
  else if url = "/eventsseason.php?id=L1&s=2025-2026" then
    Except.ok { teams := none, events := some [] }
  else Except.ok { teams := none, events := none }

/-- Client "c" follows teams "1" and "2". -/
def followsCex : FollowDB := [("c", ["1", "2"])]

/-- C3 counterexample: under one failed and one successful followed team,
`/me/feed` does not answer with overall HTTP success and a placeholder —
the failure escapes the loop and the handler answers HTTP 500. -/
theorem me_feed_500_on_upstream_failure :
    meFeed fetchSplit (fun _ => none) 0 followsCex (some "c") none
      = { status := 500, body := Body.err "upstream unavailable" } := by
  rfl

/-- C3 witness: the amended aggregation theorem applied at the concrete
instance (`/me/schedule` partial success, `/me/feed` overall failure). -/
theorem aggregation_partial_failure_app :
    meSchedule fetchSplit followsCex (some "c") (some "2025-2026")
      = { status := 200,
          body := Body.schedules
            [ { team := TeamRef.stub "1",
                season := strTrim (jsOr (some "2025-2026") ""), events := [] },
              { team := TeamRef.full (normalizeTeam rawTeamB),
                season := strTrim (jsOr (some "2025-2026") ""),
                events := ((((UpData.mk none (some [])).events).getD []).map
                    normalizeEvent).filter
                  (fun e => e.homeTeam.id == "2" || e.awayTeam.id == "2") } ] }
    ∧ meFeed fetchSplit (fun _ => none) 0 followsCex (some "c") none
      = { status := 500, body := Body.err "upstream unavailable" } :=
  aggregation_partial_failure fetchSplit (fun _ => none) 0 followsCex
    "c" "1" "2" "upstream unavailable" (UpData.mk (some [rawTeamB]) none)
    (UpData.mk none (some [])) rawTeamB (some "2025-2026") none
    (by decide) rfl rfl rfl rfl (by decide) rfl


end SportsApp
